import Mathlib

/-!
Verification of the Tempwallets off-chain coordination core.

This file gives a shallow embedding of the parts of the implementation that the
checked claims are about, and proves (or refutes) each claim against it:

* the WebSocket RPC transport (`apps/backend/src/services/yellow-network/websocket-manager.ts`):
  connection lifecycle, offline queue, request ids, reconnection backoff;
* the send path of the wallet service (`WalletService.sendCrypto`): decimal
  string conversion, balance pre-check, token-transfer capability dispatch;
* the payment-channel controller (`ChannelService`): initial state construction,
  signature ordering, and the channel-id computation (keccak256 over the ABI
  encoding of the channel tuple).

Machine integers (the JS numbers and bigints of the source) are modelled as
`Nat` / `Int`; byte strings as `List Nat` with entries below 256.
-/

namespace TempWallets

/-- Connection states of the transport, mirroring the `ConnectionState` enum
used by `websocket-manager.ts`. -/
inductive ConnectionState where
  | DISCONNECTED
  | CONNECTING
  | CONNECTED
  | RECONNECTING
  | FAILED
deriving DecidableEq, Repr

/-- RPC request envelope. In the source a request is
`{ req: [id, method, params, timestampMs], sig: [...] }`; the id is read back
as `request.req[0]`. -/
structure RPCRequest where
  reqId : Nat
  method : String
  params : String
  timestampMs : Nat
deriving DecidableEq, Repr

/-- RPC response envelope; the correlation id is `response.res[0]`. -/
structure RPCResponse where
  resId : Nat
  method : String
  payload : String
deriving DecidableEq, Repr

/-- Constructor configuration of `WebSocketManager` (all fields optional with
the defaults applied with `??` in the constructor). -/
structure WebSocketConfig where
  url : String
  reconnectAttempts : Option Nat := none
  reconnectDelay : Option Nat := none
  maxReconnectDelay : Option Nat := none
  requestTimeout : Option Nat := none
deriving DecidableEq

/-- The mutable fields of a `WebSocketManager` instance, plus a ghost trace
`sentMessages` recording every message written to the socket in order.
`pendingIds` is the key set of the `responseHandlers` map; `socketOpen` stands
for `ws?.readyState === WebSocket.OPEN`. -/
structure WSState where
  connectionState : ConnectionState
  reconnectAttempts : Nat
  maxReconnectAttempts : Nat
  reconnectDelay : Nat
  maxReconnectDelay : Nat
  requestTimeout : Nat
  messageQueue : List RPCRequest
  pendingIds : List Nat
  requestIdCounter : Nat
  reconnectTimerSet : Bool
  socketOpen : Bool
  sentMessages : List RPCRequest
deriving DecidableEq

/-- The constructor: defaults 5 / 1000 / 30000 / 30000, counters at their
initial values (`requestIdCounter = 1`, `reconnectAttempts = 0`). -/
def initState (config : WebSocketConfig) : WSState :=
  { connectionState := .DISCONNECTED
    reconnectAttempts := 0
    maxReconnectAttempts := config.reconnectAttempts.getD 5
    reconnectDelay := config.reconnectDelay.getD 1000
    maxReconnectDelay := config.maxReconnectDelay.getD 30000
    requestTimeout := config.requestTimeout.getD 30000
    messageQueue := []
    pendingIds := []
    requestIdCounter := 1
    reconnectTimerSet := false
    socketOpen := false
    sentMessages := [] }

/-- `isConnected()`: state is CONNECTED and the socket is open. -/
def WSState.isConnected (s : WSState) : Bool :=
  match s.connectionState with
  | .CONNECTED => s.socketOpen
  | _ => false

/-- Map-style insertion into the pending set (`responseHandlers.set`). -/
def insertPending (id : Nat) (l : List Nat) : List Nat :=
  if id ∈ l then l else id :: l

/-- Map-style deletion from the pending set (`responseHandlers.delete`). -/
def removePending (id : Nat) (l : List Nat) : List Nat :=
  l.filter (fun x => x != id)

/-- The queue-draining loop of `flushMessageQueue`: shift a message, try to
write it, and on a write error push it back and break. `sendOk` says whether
`ws.send` succeeds on a given message. (The `isConnected()` re-check in the
loop condition cannot change during the synchronous loop, so it is constant
here.) Returns the remaining queue and the messages written, in write order. -/
def flushLoop (sendOk : RPCRequest → Bool) : List RPCRequest → List RPCRequest × List RPCRequest
  | [] => ([], [])
  | r :: rest =>
    if sendOk r then
      let next := flushLoop sendOk rest
      (next.1, r :: next.2)
    else (r :: rest, [])

/-- Observable actions performed by the `ws.on open` handler, in order. -/
inductive OpenAction where
  | flushWrite (r : RPCRequest)
  | onConnectHook
  | resolve
deriving DecidableEq, Repr

/-- The `ws.on open` handler: marks CONNECTED, resets the attempt counter,
flushes any queued messages, then fires the `onConnect` hook and resolves the
`connect()` promise. The returned action list is the order in which these
effects happen in the source. -/
def onOpen (sendOk : RPCRequest → Bool) (s : WSState) : WSState × List OpenAction :=
  let s1 : WSState :=
    { s with socketOpen := true, connectionState := .CONNECTED, reconnectAttempts := 0 }
  let flushed : List RPCRequest × List RPCRequest :=
    if s1.isConnected = false ∨ s1.messageQueue = [] then (s1.messageQueue, [])
    else flushLoop sendOk s1.messageQueue
  let s2 : WSState :=
    { s1 with messageQueue := flushed.1, sentMessages := s1.sentMessages ++ flushed.2 }
  (s2, flushed.2.map OpenAction.flushWrite ++ [OpenAction.onConnectHook, OpenAction.resolve])

/-- Synchronous outcome of a `send` call: the message was written now, queued
for later, or the write threw (in which case the caller is rejected and the
pending entry removed again). -/
inductive SendOutcome where
  | written
  | queued
  | writeFailed
deriving DecidableEq, Repr

/-- The synchronous part of `WebSocketManager.send`: registers the response
handler under `request.req[0]`, arms the per-request timeout, then writes if
the socket is open and otherwise appends the request to the offline queue.
There is no connection-state check: a send while disconnected (including in
the FAILED state) is queued, never rejected eagerly. -/
def sendRequest (sendOk : RPCRequest → Bool) (s : WSState) (r : RPCRequest) :
    WSState × SendOutcome :=
  let s1 : WSState := { s with pendingIds := insertPending r.reqId s.pendingIds }
  if s.socketOpen then
    if sendOk r then ({ s1 with sentMessages := s1.sentMessages ++ [r] }, .written)
    else (s, .writeFailed)
  else
    ({ s1 with messageQueue := s1.messageQueue ++ [r] }, .queued)

/-- The request-timeout callback: deletes the pending handler and rejects the
caller with the timeout message. The offline queue is not touched. -/
def timeoutFire (s : WSState) (id : Nat) : WSState × String :=
  ({ s with pendingIds := removePending id s.pendingIds },
   "Request " ++ toString id ++ " timed out after " ++ toString s.requestTimeout ++ "ms")

/-- How `handleMessage` classifies an incoming message. -/
inductive MessageHandling where
  | correlated
  | notificationDispatch
deriving DecidableEq, Repr

/-- `handleMessage`: a response whose id has a registered handler resolves it
and clears the entry; any other message is handled as a notification. -/
def handleMessage (s : WSState) (resp : RPCResponse) : WSState × MessageHandling :=
  if resp.resId ∈ s.pendingIds then
    ({ s with pendingIds := removePending resp.resId s.pendingIds }, .correlated)
  else (s, .notificationDispatch)

/-- `scheduleReconnect`: no-op when a timer is already pending; otherwise bumps
the attempt counter and schedules a retry after
`min(reconnectDelay * 2^(attempts-1), maxReconnectDelay)`. Returns the state
and the scheduled delay. -/
def scheduleReconnect (s : WSState) : WSState × Option Nat :=
  if s.reconnectTimerSet then (s, none)
  else
    let attempts := s.reconnectAttempts + 1
    let delay := min (s.reconnectDelay * 2 ^ (attempts - 1)) s.maxReconnectDelay
    ({ s with reconnectAttempts := attempts
              connectionState := .RECONNECTING
              reconnectTimerSet := true }, some delay)

/-- The `ws.on close` handler: marks DISCONNECTED and drops the socket, then
either schedules a reconnect (non-clean close within budget) or, when the
budget is exhausted, transitions to FAILED. -/
def onClose (code : Nat) (s : WSState) : WSState × Option Nat :=
  if code ≠ 1000 ∧ s.reconnectAttempts < s.maxReconnectAttempts then
    scheduleReconnect { s with connectionState := .DISCONNECTED, socketOpen := false }
  else if s.maxReconnectAttempts ≤ s.reconnectAttempts then
    ({ s with connectionState := .FAILED, socketOpen := false }, none)
  else ({ s with connectionState := .DISCONNECTED, socketOpen := false }, none)

/-- `getNextRequestId()`: return the counter and post-increment it. -/
def getNextRequestId (s : WSState) : Nat × WSState :=
  (s.requestIdCounter, { s with requestIdCounter := s.requestIdCounter + 1 })

/-- The ids produced by `n` consecutive `getNextRequestId()` calls from `s`. -/
def idsAfter : WSState → Nat → List Nat
  | _, 0 => []
  | s, n + 1 =>
    let next := getNextRequestId s
    next.1 :: idsAfter next.2 n

/-- A sample request used in the concrete executions below. -/
def sampleReq : RPCRequest :=
  { reqId := 7, method := "get_ledger_balances", params := "", timestampMs := 0 }

/-- A freshly constructed, disconnected transport holding one queued request. -/
def queuedState : WSState :=
  { initState { url := "wss://clearnet.example" } with messageQueue := [sampleReq] }

/-- A transport whose reconnection budget (default 5) is exhausted. -/
def failedState : WSState :=
  { initState { url := "wss://clearnet.example" } with
      connectionState := .FAILED, reconnectAttempts := 5 }

/-- Boolean test for the hook action. -/
def isHookAction : OpenAction → Bool
  | .onConnectHook => true
  | _ => false

/-- Boolean test for a queued-message write action. -/
def isWriteAction : OpenAction → Bool
  | .flushWrite _ => true
  | _ => false

/-- Whether the on-connect hook fires strictly before the first queued write in
an open-handler action trace (vacuously true when either never happens). -/
def hookBeforeFirstWrite (tr : List OpenAction) : Bool :=
  match tr.findIdx? isHookAction, tr.findIdx? isWriteAction with
  | some h, some w => decide (h < w)
  | _, _ => true

/-- State after sending `r` on a closed socket and letting its timeout fire. -/
def queuedThenTimeoutState (s : WSState) (r : RPCRequest) : WSState :=
  (timeoutFire (sendRequest (fun _ => true) s r).1 r.reqId).1

/-- State after the subsequent successful open (all writes succeeding). -/
def reopenedState (s : WSState) (r : RPCRequest) : WSState :=
  (onOpen (fun _ => true) (queuedThenTimeoutState s r)).1

/-! Embedding of `WalletService.sendCrypto` (decimal conversion, balance
pre-check and the token-transfer dispatch). Decimal strings are modelled as
lists of digits; splitting on the dot is already done, so a human amount is a
pair of digit lists (whole part, fractional part). -/

/-- Numeric value of a digit string, most significant digit first (this is how
`BigInt` reads an all-digit string). -/
def digitsVal (l : List Nat) : Nat :=
  l.foldl (fun acc d => 10 * acc + d) 0

/-- The `replace(/^0+/, '') || '0'` idiom: strip leading zeros, an all-zero
string collapsing to the single digit 0. -/
def stripZeros (l : List Nat) : List Nat :=
  match l.dropWhile (fun d => d == 0) with
  | [] => [0]
  | l' => l'

/-- `toSmallest` from `sendCrypto`: clean the whole part, right-pad the
fractional digits with zeros and truncate to exactly `decimals` digits,
concatenate, and clean again. -/
def toSmallest (whole frac : List Nat) (decimals : Nat) : List Nat :=
  let cleanWhole := stripZeros whole
  let fracPadded := (frac ++ List.replicate decimals 0).take decimals
  stripZeros (cleanWhole ++ fracPadded)

/-- Rational value of a decimal string split into whole and fractional digit
lists (`whole.frac`). -/
def decimalVal (whole frac : List Nat) : ℚ :=
  digitsVal whole + (digitsVal frac : ℚ) / 10 ^ frac.length

/-- The `/^[0-9]+$/` test applied to the available-balance string (stated over
the string's character list). -/
def isNumericStr (s : String) : Bool :=
  !s.data.isEmpty && s.data.all (fun c => c.isDigit)

/-- `BigInt` value of an all-digit string (over its character list). -/
def strNatVal (s : String) : Nat :=
  s.data.foldl (fun acc c => 10 * acc + (c.toNat - 48)) 0

/-- Result of a signer transfer entry point: either directly the hash string,
or an object with optional `hash` / `txHash` fields; `strRepr` is the
`String(result)` rendering used as the last resort. -/
inductive TxResult where
  | str (s : String)
  | obj (hashField : Option String) (txHashField : Option String) (strRepr : String)
deriving DecidableEq, Repr

/-- JS truthiness of an optional string: undefined and the empty string are
falsy. -/
def truthyStr : Option String → Option String
  | some s => if s.isEmpty then none else some s
  | none => none

/-- The hash extraction applied to every transfer result:
`typeof result === 'string' ? result : (result?.hash || result?.txHash || String(result))`. -/
def extractTxHash : TxResult → String
  | .str s => s
  | .obj h t rep =>
    match truthyStr h with
    | some v => v
    | none =>
      match truthyStr t with
      | some v => v
      | none => rep

instance {ε α : Type} [DecidableEq ε] [DecidableEq α] : DecidableEq (Except ε α) := fun x y =>
  match x, y with
  | .error a, .error b =>
    if h : a = b then .isTrue (by rw [h]) else .isFalse (by intro hc; cases hc; exact h rfl)
  | .error _, .ok _ => .isFalse (by intro hc; cases hc)
  | .ok _, .error _ => .isFalse (by intro hc; cases hc)
  | .ok a, .ok b =>
    if h : a = b then .isTrue (by rw [h]) else .isFalse (by intro hc; cases hc; exact h rfl)

/-- A signer account's token-transfer capability set. Each entry point is
absent (`none`), or present and then either returns a result or throws the
given error. `transfer` carries the outcomes of both argument shapes; the
`to`-shape is only ever invoked after the `recipient`-shape threw. -/
structure TokenAccount where
  transfer : Option (Except String TxResult × Except String TxResult)
  sendToken : Option (Except String TxResult)
  transferToken : Option (Except String TxResult)
  send : Option (Except String TxResult)
deriving DecidableEq, Repr

/-- The five token-transfer entry points, in source order. -/
inductive Attempt where
  | transferRecipient
  | transferTo
  | sendTokenCall
  | transferTokenCall
  | genericSend
deriving DecidableEq, Repr

/-- Error message thrown when nothing was sent or the hash is empty. -/
def unsupportedMsg : String := "Token transfer method not supported by this account"

/-- Accumulator of the sequential dispatch (`sent` flag, hash so far, and the
trace of entry points invoked). -/
structure DispatchAcc where
  attempts : List Attempt
  txHash : String
  sent : Bool
deriving DecidableEq, Repr

/-- The ERC-20 transfer dispatch of `sendCrypto`, transcribed from the source:
first `transfer` with the recipient key, on a throw the same call with the
`to` key, then `sendToken`, then `transferToken` (each guarded by `!sent` and
presence, with thrown errors swallowed), and finally the generic `send`, whose
error is NOT caught. If nothing was sent, or the extracted hash is falsy, a
service-unavailable error is raised. Returns the invocation trace and the
outcome. -/
def tokenDispatch (a : TokenAccount) : List Attempt × Except String String :=
  let acc1 : DispatchAcc :=
    match a.transfer with
    | none => { attempts := [], txHash := "", sent := false }
    | some (r1, r2) =>
      match r1 with
      | .ok res =>
        { attempts := [Attempt.transferRecipient], txHash := extractTxHash res, sent := true }
      | .error _ =>
        match r2 with
        | .ok res =>
          { attempts := [Attempt.transferRecipient, Attempt.transferTo]
            txHash := extractTxHash res
            sent := true }
        | .error _ =>
          { attempts := [Attempt.transferRecipient, Attempt.transferTo]
            txHash := ""
            sent := false }
  let acc2 : DispatchAcc :=
    if acc1.sent then acc1 else
      match a.sendToken with
      | none => acc1
      | some (.ok res) =>
        { attempts := acc1.attempts ++ [Attempt.sendTokenCall]
          txHash := extractTxHash res
          sent := true }
      | some (.error _) =>
        { acc1 with attempts := acc1.attempts ++ [Attempt.sendTokenCall] }
  let acc3 : DispatchAcc :=
    if acc2.sent then acc2 else
      match a.transferToken with
      | none => acc2
      | some (.ok res) =>
        { attempts := acc2.attempts ++ [Attempt.transferTokenCall]
          txHash := extractTxHash res
          sent := true }
      | some (.error _) =>
        { acc2 with attempts := acc2.attempts ++ [Attempt.transferTokenCall] }
  if acc3.sent then
    (acc3.attempts, if acc3.txHash.isEmpty then .error unsupportedMsg else .ok acc3.txHash)
  else
    match a.send with
    | some (.ok res) =>
      (acc3.attempts ++ [Attempt.genericSend],
       if (extractTxHash res).isEmpty then .error unsupportedMsg else .ok (extractTxHash res))
    | some (.error e) => (acc3.attempts ++ [Attempt.genericSend], .error e)
    | none => (acc3.attempts, .error unsupportedMsg)

/-- Amended-claim reference dispatch, written from the spec wording: the
available entry points in the fixed priority order, as a flat list. -/
def specAttemptList (a : TokenAccount) : List (Attempt × Except String TxResult) :=
  (match a.transfer with
   | some (r1, r2) => [(Attempt.transferRecipient, r1), (Attempt.transferTo, r2)]
   | none => []) ++
  (match a.sendToken with
   | some r => [(Attempt.sendTokenCall, r)]
   | none => []) ++
  (match a.transferToken with
   | some r => [(Attempt.transferTokenCall, r)]
   | none => []) ++
  (match a.send with
   | some r => [(Attempt.genericSend, r)]
   | none => [])

/-- Run attempts in order until the first success; returns the trace of
attempts made and the first successful result, if any. -/
def runUntilSuccess : List (Attempt × Except String TxResult) → List Attempt × Option TxResult
  | [] => ([], none)
  | (who, r) :: rest =>
    match r with
    | .ok res => ([who], some res)
    | .error _ =>
      let next := runUntilSuccess rest
      (who :: next.1, next.2)

/-- Amended-claim dispatch: try the available entry points in the fixed order,
stop at the first success and extract its hash (result itself when a string,
else the first non-empty hash/txHash field, else the string rendering); when
every attempt fails, the generic send's error propagates if it was reached,
otherwise the dispatch reports the unsupported-method error; an empty
extracted hash is also reported as unsupported. -/
def specOrderedDispatch (a : TokenAccount) : List Attempt × Except String String :=
  let run := runUntilSuccess (specAttemptList a)
  match run.2 with
  | some res =>
    (run.1, if (extractTxHash res).isEmpty then .error unsupportedMsg else .ok (extractTxHash res))
  | none =>
    (run.1,
     match a.send with
     | some (.error e) => .error e
     | _ => .error unsupportedMsg)

/-- The extraction rule exactly as claim C6 words it: the returned hash is the
result itself when it is a string, otherwise the value of its `.hash` or
`.txHash` field. -/
def claimedHashOf (r : TxResult) (h : String) : Prop :=
  r = TxResult.str h ∨
  (∃ t rep, r = TxResult.obj (some h) t rep) ∨
  (∃ hs rep, r = TxResult.obj hs (some h) rep)

/-- Concrete transfer result for the C6 counterexample: an object with neither
a `hash` nor a `txHash` field. -/
def hashlessResult : TxResult := .obj none none "objectlike-rendering"

/-- Concrete account for the C6 counterexample: `transfer` is present and its
recipient-shape call succeeds with `hashlessResult`. -/
def hashlessAccount : TokenAccount :=
  { transfer := some (.ok hashlessResult, .error "unused")
    sendToken := none
    transferToken := none
    send := none }

/-- An account advertising no token-transfer entry point at all. -/
def emptyAccount : TokenAccount :=
  { transfer := none
    sendToken := none
    transferToken := none
    send := none }

/-- The balance pre-check of `sendCrypto`: a numeric available balance that is
strictly below the requested smallest-unit amount raises the
insufficient-balance error carrying both values and the balance source;
any other available balance lets the send proceed (`none`). -/
def balancePreCheck (available requested source : String) : Option String :=
  if isNumericStr available then
    if strNatVal available < strNatVal requested then
      some ("Insufficient balance. Available: " ++ available ++ " (" ++ source ++
        "), Requested: " ++ requested)
    else none
  else none

/-- The send phase of `sendCrypto` for a token transfer: the balance pre-check
runs first and only when it passes is the transfer dispatch attempted. -/
def sendCryptoTokenPhase (available requested source : String) (acct : TokenAccount) :
    List Attempt × Except String String :=
  match balancePreCheck available requested source with
  | some msg => ([], .error msg)
  | none => tokenDispatch acct

/-! Embedding of the `ChannelService` (payment-channel controller): the state
intents, the initial-state construction of `createChannel`, the signature
ordering of the three on-chain submissions, and `computeChannelId`, which is
keccak256 over the ABI encoding of `(participants[2], adjudicator, challenge,
nonce)`. Addresses and uint256 values are modelled as `Nat`, bigints of the
allocation vectors as `Int`, and byte strings as `List Nat`. -/

/-- Channel state intents (`StateIntent` in types.ts). -/
inductive StateIntent where
  | OPERATE
  | INITIALIZE
  | RESIZE
  | FINALIZE
deriving DecidableEq, Repr

/-- A channel state as submitted on-chain: intent, version, data blob and the
allocation vector of (index, amount) pairs. -/
structure ChannelState where
  intent : StateIntent
  version : Nat
  data : String
  allocations : List (Int × Int)
deriving DecidableEq, Repr

/-- The immutable channel tuple parsed from the clearnode response. -/
structure Channel where
  participants : Nat × Nat
  adjudicator : Nat
  challenge : Nat
  nonce : Nat
deriving DecidableEq, Repr

/-- The `create_channel` response payload used by `createChannel`. -/
structure ChannelData where
  channel : Channel
  userSignature : String
  serverSignature : String
deriving DecidableEq, Repr

/-- The `resize_channel` / `close_channel` response payload: the new state
fields and the two clearnode signatures. -/
structure StateResponseData where
  stateVersion : Nat
  stateData : String
  stateAllocations : List (Int × Int)
  userSignature : String
  serverSignature : String
deriving DecidableEq, Repr

/-- The initial state constructed by `createChannel`. Note the source guards
the allocation on the truthiness of `initialDeposit`, so a zero bigint takes
the else branch. -/
def buildInitialState (initialDeposit : Option Int) : ChannelState :=
  { intent := .INITIALIZE
    version := 0
    data := "0x"
    allocations :=
      match initialDeposit with
      | some dep => if dep ≠ 0 then [(0, dep), (1, 0)] else [(0, 0), (1, 0)]
      | none => [(0, 0), (1, 0)] }

/-- The arguments of a `walletClient.writeContract` call against the custody
contract. -/
structure CustodyCall where
  functionName : String
  state : ChannelState
  sigs : List String
deriving DecidableEq, Repr

/-- The `Custody.create` submission assembled by `createChannel`. -/
def createChannelCall (cd : ChannelData) (initialDeposit : Option Int) : CustodyCall :=
  { functionName := "create"
    state := buildInitialState initialDeposit
    sigs := [cd.userSignature, cd.serverSignature] }

/-- The `Custody.resize` submission assembled by `resizeChannel`. -/
def resizeChannelCall (rd : StateResponseData) : CustodyCall :=
  { functionName := "resize"
    state := { intent := .RESIZE, version := rd.stateVersion, data := rd.stateData,
               allocations := rd.stateAllocations }
    sigs := [rd.userSignature, rd.serverSignature] }

/-- The `Custody.close` submission assembled by `closeChannel` (the final
state's data is hard-coded to 0x in the source). -/
def closeChannelCall (rd : StateResponseData) : CustodyCall :=
  { functionName := "close"
    state := { intent := .FINALIZE, version := rd.stateVersion, data := "0x",
               allocations := rd.stateAllocations }
    sigs := [rd.userSignature, rd.serverSignature] }

/-! Keccak-256 (the legacy 0x01-padded Keccak used by Ethereum and by viem's
`keccak256`), implemented over 64-bit lanes modelled as naturals below 2^64.
Bytes are naturals below 256. -/

/-- All-ones 64-bit mask. -/
def mask64 : Nat := 2 ^ 64 - 1

/-- Left-rotation of a 64-bit lane. -/
def rotl64 (x r : Nat) : Nat :=
  ((x <<< r) ||| (x >>> (64 - r))) &&& mask64

/-- One step of the degree-8 LFSR (polynomial x^8 + x^6 + x^5 + x^4 + 1)
generating the iota round-constant bits: returns the output bit and the next
register value. -/
def rcLfsrStep (reg : Nat) : Nat × Nat :=
  (reg &&& 1,
   if reg &&& 0x80 ≠ 0 then ((reg <<< 1) ^^^ 0x71) &&& 0xFF else (reg <<< 1) &&& 0xFF)

/-- The round constant of one round, from the running LFSR register: seven
output bits land at lane-bit positions 2^j − 1. Returns the constant and the
register left for the following round. -/
def rcRound (reg0 : Nat) : Nat × Nat :=
  (List.range 7).foldl
    (fun acc j =>
      let step := rcLfsrStep acc.2
      (if step.1 = 1 then acc.1 ^^^ (1 <<< (2 ^ j - 1)) else acc.1, step.2))
    (0, reg0)

/-- The 24 round constants of keccak-f[1600], generated from the LFSR seeded
with 1. -/
def keccakRC : List Nat :=
  ((List.range 24).foldl
    (fun acc _ =>
      let next := rcRound acc.2
      (acc.1 ++ [next.1], next.2))
    (([] : List Nat), 1)).1

/-- Rotation offsets indexed x + 5y, generated by walking the lane sequence
(x, y) → (y, 2x + 3y mod 5) from (1, 0) and assigning triangular numbers
(t+1)(t+2)/2 mod 64; lane (0, 0) keeps offset 0. -/
def rhoOffsets : List Nat :=
  ((List.range 24).foldl
    (fun acc t =>
      let tbl := acc.1
      let x := acc.2.1
      let y := acc.2.2
      (tbl.set (x + 5 * y) (((t + 1) * (t + 2) / 2) % 64), y, (2 * x + 3 * y) % 5))
    (List.replicate 25 0, 1, 0)).1

/-- Lane (x, y) of a 25-lane sheet. -/
def lane (s : List Nat) (x y : Nat) : Nat :=
  s.getD (x + 5 * y) 0

/-- Theta step. -/
def theta (s : List Nat) : List Nat :=
  let c := fun x => lane s x 0 ^^^ lane s x 1 ^^^ lane s x 2 ^^^ lane s x 3 ^^^ lane s x 4
  let dcol := fun x => c ((x + 4) % 5) ^^^ rotl64 (c ((x + 1) % 5)) 1
  (List.range 25).map fun i => lane s (i % 5) (i / 5) ^^^ dcol (i % 5)

/-- Combined rho and pi steps: the output lane (x', y') is the rotated input
lane (x' + 3y' mod 5, x'). -/
def rhoPi (s : List Nat) : List Nat :=
  (List.range 25).map fun j =>
    let x1 := j % 5
    let y1 := j / 5
    let x := (x1 + 3 * y1) % 5
    rotl64 (lane s x x1) (rhoOffsets.getD (x + 5 * x1) 0)

/-- Chi step. -/
def chi (s : List Nat) : List Nat :=
  (List.range 25).map fun j =>
    let x := j % 5
    let y := j / 5
    lane s x y ^^^ ((lane s ((x + 1) % 5) y ^^^ mask64) &&& lane s ((x + 2) % 5) y)

/-- Iota step. -/
def iotaStep (rc : Nat) (s : List Nat) : List Nat :=
  match s with
  | [] => []
  | a :: rest => (a ^^^ rc) :: rest

/-- The full keccak-f[1600] permutation: 24 rounds of theta, rho-pi, chi,
iota. -/
def keccakF (s : List Nat) : List Nat :=
  keccakRC.foldl (fun st rc => iotaStep rc (chi (rhoPi (theta st)))) s

/-- A little-endian 8-byte group read as one 64-bit lane. -/
def bytesToLane (bs : List Nat) : Nat :=
  bs.foldr (fun b acc => acc * 256 + b) 0

/-- The 17 lanes (rate 1088 bits) of one 136-byte block. -/
def blockLanes (block : List Nat) : List Nat :=
  (List.range 17).map fun i => bytesToLane ((block.drop (8 * i)).take 8)

/-- Absorb one 136-byte block into the sheet. -/
def absorbBlock (s : List Nat) (block : List Nat) : List Nat :=
  keccakF (List.zipWith (fun a b => a ^^^ b) s (blockLanes block ++ List.replicate 8 0))

/-- Keccak (pre-SHA3) multi-rate padding for rate 136: append 0x01, zero fill,
and set the top bit of the final byte (a lone 0x81 when one byte remains). -/
def keccakPad (msg : List Nat) : List Nat :=
  let padLen := 136 - msg.length % 136
  if padLen = 1 then msg ++ [0x81]
  else msg ++ [0x01] ++ List.replicate (padLen - 2) 0 ++ [0x80]

/-- Split a padded message into 136-byte blocks. -/
def blocks136 (l : List Nat) : List (List Nat) :=
  if _h : l.length ≤ 136 then [l]
  else l.take 136 :: blocks136 (l.drop 136)
termination_by l.length
decreasing_by
  simp only [List.length_drop]
  omega

/-- A 64-bit lane rendered as 8 little-endian bytes. -/
def laneToBytes (n : Nat) : List Nat :=
  (List.range 8).map fun i => n / 256 ^ i % 256

/-- Keccak-256 of a byte string: absorb the padded message into the zero sheet
and squeeze the first 32 bytes. -/
def keccak256 (msg : List Nat) : List Nat :=
  let sheet := (blocks136 (keccakPad msg)).foldl absorbBlock (List.replicate 25 0)
  ((sheet.take 4).map laneToBytes).flatten

/-- A (possibly truncated) value as one big-endian 32-byte ABI word. -/
def word32 (n : Nat) : List Nat :=
  (List.range 32).map fun i => n % 2 ^ 256 / 256 ^ (31 - i) % 256

/-- `encodeAbiParameters(parseAbiParameters('address[2], address, uint256,
uint256'), ...)`: all four parameter types are static, so the encoding is the
five head words in order. -/
def encodeChannelTuple (p0 p1 adjudicator challenge nonce : Nat) : List Nat :=
  word32 p0 ++ word32 p1 ++ word32 adjudicator ++ word32 challenge ++ word32 nonce

/-- `ChannelService.computeChannelId`: keccak256 of the ABI encoding of the
channel tuple. -/
def computeChannelId (c : Channel) : List Nat :=
  keccak256 (encodeChannelTuple c.participants.1 c.participants.2
    c.adjudicator c.challenge c.nonce)

/-- A concrete channel tuple for the C8 witness. -/
def sampleChannel : Channel :=
  { participants := (0xA11CE, 0xB0B)
    adjudicator := 0xAD
    challenge := 3600
    nonce := 42 }

/-! Basic lemmas about the transport embedding. -/

theorem mem_insertPending (id : Nat) (l : List Nat) : id ∈ insertPending id l := by
  unfold insertPending
  split <;> simp_all

theorem not_mem_removePending (id : Nat) (l : List Nat) : id ∉ removePending id l := by
  simp [removePending, List.mem_filter]

/-- With every write succeeding, the flush loop drains the whole queue. -/
theorem flushLoop_all_ok (q : List RPCRequest) : flushLoop (fun _ => true) q = ([], q) := by
  induction q with
  | nil => rfl
  | cons r rest ih => simp [flushLoop, ih]

/-- A successful open with every write succeeding drains the whole queue into
the socket and leaves the pending map alone. -/
theorem onOpen_all_ok (s : WSState) :
    (onOpen (fun _ => true) s).1.sentMessages = s.sentMessages ++ s.messageQueue ∧
    (onOpen (fun _ => true) s).1.messageQueue = [] ∧
    (onOpen (fun _ => true) s).1.pendingIds = s.pendingIds := by
  unfold onOpen
  rcases hq : s.messageQueue with _ | ⟨a, rest⟩
  · simp [WSState.isConnected, hq]
  · simp [WSState.isConnected, hq, flushLoop_all_ok]

theorem idsAfter_eq_range' (s : WSState) (n : Nat) :
    idsAfter s n = List.range' s.requestIdCounter n := by
  induction n generalizing s with
  | zero => rfl
  | succ n ih => simp [idsAfter, getNextRequestId, ih, List.range']

/-- Index arithmetic behind the corrected C1 ordering: in a trace consisting of
the queued writes followed by the hook and the resolve, any write index is
strictly below any hook index. -/
theorem write_lt_hook_aux (ws : List RPCRequest) (i j : Nat) (r : RPCRequest)
    (hi : (ws.map OpenAction.flushWrite ++
      [OpenAction.onConnectHook, OpenAction.resolve])[i]? = some (OpenAction.flushWrite r))
    (hj : (ws.map OpenAction.flushWrite ++
      [OpenAction.onConnectHook, OpenAction.resolve])[j]? = some OpenAction.onConnectHook) :
    i < j := by
  have hlen : (ws.map OpenAction.flushWrite).length = ws.length := by simp
  by_cases hiw : i < ws.length
  · by_cases hjw : j < ws.length
    · exfalso
      rw [List.getElem?_append, if_pos (by omega), List.getElem?_map] at hj
      rcases h : ws[j]? with _ | x <;> rw [h] at hj <;> simp at hj
    · omega
  · exfalso
    rw [List.getElem?_append_right (by omega), hlen] at hi
    rcases hk : i - ws.length with _ | m
    · rw [hk] at hi; simp at hi
    · rcases m with _ | m <;> rw [hk] at hi <;> simp at hi

/-! The claims about the RPC transport. -/

/-- C1, counterexample: when a connection opens with a non-empty offline queue,
the open handler flushes the queue first and only then invokes the on-connect
hook, so the claimed hook-before-first-write ordering fails on this execution. -/
theorem c1_hook_order_counterexample :
    queuedState.messageQueue ≠ [] ∧
    hookBeforeFirstWrite (onOpen (fun _ => true) queuedState).2 = false := by
  constructor
  · simp [queuedState, initState]
  · rfl

/-- C1, amended: on every open, every queued message written by the flush
precedes the on-connect hook in the handler's action order (the hook fires
after the offline queue is flushed, not before). -/
theorem c1_flush_precedes_hook (sendOk : RPCRequest → Bool) (s : WSState)
    (i j : Nat) (r : RPCRequest)
    (hi : (onOpen sendOk s).2[i]? = some (OpenAction.flushWrite r))
    (hj : (onOpen sendOk s).2[j]? = some OpenAction.onConnectHook) :
    i < j := by
  unfold onOpen at hi hj
  exact write_lt_hook_aux _ i j r hi hj

/-- C1 witness: the amended ordering at a concrete open with one queued
message, whose write occupies index 0 and the hook index 1. -/
theorem c1_flush_precedes_hook_witness :
    (onOpen (fun _ => true) queuedState).2[0]? = some (OpenAction.flushWrite sampleReq) ∧
    (onOpen (fun _ => true) queuedState).2[1]? = some OpenAction.onConnectHook ∧
    (0 : Nat) < 1 :=
  ⟨rfl, rfl, c1_flush_precedes_hook (fun _ => true) queuedState 0 1 sampleReq rfl rfl⟩

/-- C2, counterexample: in the FAILED state, `send` does not reject immediately
with a not-connected error; the request is enqueued and its handler is left
pending (the caller can only fail later via the request timeout). -/
theorem c2_send_in_failed_counterexample :
    failedState.connectionState = ConnectionState.FAILED ∧
    (sendRequest (fun _ => true) failedState sampleReq).2 = SendOutcome.queued ∧
    sampleReq ∈ (sendRequest (fun _ => true) failedState sampleReq).1.messageQueue ∧
    sampleReq.reqId ∈ (sendRequest (fun _ => true) failedState sampleReq).1.pendingIds := by
  refine ⟨rfl, rfl, ?_, ?_⟩ <;>
    simp [sendRequest, failedState, initState, insertPending, sampleReq]

/-- C2, amended: exhausting the reconnection budget does drive the close
handler into FAILED, but a later `send` while the socket is down enqueues the
request and leaves its handler pending; the caller is only failed by the
request timeout, which then clears the pending entry. -/
theorem c2_failed_send_queues (s t : WSState) (code : Nat) (r : RPCRequest)
    (sendOk : RPCRequest → Bool)
    (hbudget : s.maxReconnectAttempts ≤ s.reconnectAttempts)
    (hclosed : t.socketOpen = false) :
    (onClose code s).1.connectionState = ConnectionState.FAILED ∧
    (sendRequest sendOk t r).2 = SendOutcome.queued ∧
    r ∈ (sendRequest sendOk t r).1.messageQueue ∧
    r.reqId ∈ (sendRequest sendOk t r).1.pendingIds ∧
    r.reqId ∉ (timeoutFire (sendRequest sendOk t r).1 r.reqId).1.pendingIds := by
  refine ⟨?_, ?_, ?_, ?_, ?_⟩
  · unfold onClose
    rw [if_neg (by omega), if_pos (by omega)]
  · simp [sendRequest, hclosed]
  · simp [sendRequest, hclosed]
  · simp [sendRequest, hclosed, mem_insertPending]
  · exact not_mem_removePending _ _

/-- C2 witness: the amended behaviour at the concrete exhausted-budget state. -/
theorem c2_failed_send_queues_witness :
    failedState.maxReconnectAttempts ≤ failedState.reconnectAttempts ∧
    failedState.socketOpen = false ∧
    ((onClose 1006 failedState).1.connectionState = ConnectionState.FAILED ∧
     (sendRequest (fun _ => false) failedState sampleReq).2 = SendOutcome.queued ∧
     sampleReq ∈ (sendRequest (fun _ => false) failedState sampleReq).1.messageQueue ∧
     sampleReq.reqId ∈ (sendRequest (fun _ => false) failedState sampleReq).1.pendingIds ∧
     sampleReq.reqId ∉
       (timeoutFire (sendRequest (fun _ => false) failedState sampleReq).1
         sampleReq.reqId).1.pendingIds) :=
  ⟨by decide, rfl,
   c2_failed_send_queues failedState failedState 1006 sampleReq (fun _ => false)
     (by decide) rfl⟩

/-- C3: request ids of one manager instance start at 1, increase strictly, and
are never reused; the open handler, the close handler and the reconnect
scheduler leave the counter untouched, so reconnection does not reset it. -/
theorem c3_request_ids (cfg : WebSocketConfig) (n : Nat) :
    idsAfter (initState cfg) n = List.range' 1 n ∧
    (idsAfter (initState cfg) n).Pairwise (· < ·) ∧
    (idsAfter (initState cfg) n).Nodup ∧
    (∀ sendOk s, (onOpen sendOk s).1.requestIdCounter = s.requestIdCounter) ∧
    (∀ code s, (onClose code s).1.requestIdCounter = s.requestIdCounter) ∧
    (∀ s, (scheduleReconnect s).1.requestIdCounter = s.requestIdCounter) := by
  have hids : idsAfter (initState cfg) n = List.range' 1 n := idsAfter_eq_range' _ n
  have hsched : ∀ s, (scheduleReconnect s).1.requestIdCounter = s.requestIdCounter := by
    intro s
    unfold scheduleReconnect
    split <;> rfl
  refine ⟨hids, ?_, ?_, ?_, ?_, hsched⟩
  · rw [hids]; exact List.pairwise_lt_range' 1 n
  · rw [hids]; exact List.nodup_range' 1 n
  · intro sendOk s; rfl
  · intro code s
    unfold onClose
    split
    · exact hsched _
    · split <;> rfl

/-- C9: on a non-clean close within the reconnection budget, attempt `n` is
scheduled after delay `min(reconnectDelay · 2^(n-1), maxReconnectDelay)`, and
every successful open resets the attempt counter to 0 (so the delay sequence
restarts at the initial delay). -/
theorem c9_backoff (s : WSState) (code n : Nat)
    (hcode : code ≠ 1000) (htimer : s.reconnectTimerSet = false)
    (hn : s.reconnectAttempts + 1 = n)
    (hbudget : s.reconnectAttempts < s.maxReconnectAttempts) :
    (onClose code s).2 = some (min (s.reconnectDelay * 2 ^ (n - 1)) s.maxReconnectDelay) ∧
    (onClose code s).1.reconnectAttempts = n ∧
    (onClose code s).1.connectionState = ConnectionState.RECONNECTING ∧
    ∀ sendOk s', (onOpen sendOk s').1.reconnectAttempts = 0 := by
  have hc : (onClose code s) = scheduleReconnect
      { s with connectionState := .DISCONNECTED, socketOpen := false } := by
    unfold onClose
    rw [if_pos (by exact ⟨hcode, hbudget⟩)]
  have hs : scheduleReconnect { s with connectionState := .DISCONNECTED, socketOpen := false } =
      ({ s with
          connectionState := .RECONNECTING
          socketOpen := false
          reconnectAttempts := s.reconnectAttempts + 1
          reconnectTimerSet := true },
       some (min (s.reconnectDelay * 2 ^ s.reconnectAttempts) s.maxReconnectDelay)) := by
    unfold scheduleReconnect
    rw [if_neg (by simp [htimer])]
    simp
  have hexp : n - 1 = s.reconnectAttempts := by omega
  refine ⟨?_, ?_, ?_, fun sendOk s' => rfl⟩
  · rw [hc, hs, hexp]
  · rw [hc, hs]
    simpa using hn
  · rw [hc, hs]

/-- C9 witness: the first retry after a code-1006 close of a fresh manager is
scheduled at the initial delay. -/
theorem c9_backoff_witness :
    (1006 : Nat) ≠ 1000 ∧
    (initState { url := "wss://clearnet.example" }).reconnectTimerSet = false ∧
    (initState { url := "wss://clearnet.example" }).reconnectAttempts + 1 = 1 ∧
    (initState { url := "wss://clearnet.example" }).reconnectAttempts <
      (initState { url := "wss://clearnet.example" }).maxReconnectAttempts ∧
    ((onClose 1006 (initState { url := "wss://clearnet.example" })).2 =
      some (min ((initState { url := "wss://clearnet.example" }).reconnectDelay * 2 ^ (1 - 1))
        (initState { url := "wss://clearnet.example" }).maxReconnectDelay) ∧
     (onClose 1006 (initState { url := "wss://clearnet.example" })).1.reconnectAttempts = 1 ∧
     (onClose 1006 (initState { url := "wss://clearnet.example" })).1.connectionState =
       ConnectionState.RECONNECTING ∧
     ∀ sendOk s', (onOpen sendOk s').1.reconnectAttempts = 0) :=
  ⟨by decide, rfl, rfl, by decide,
   c9_backoff (initState { url := "wss://clearnet.example" }) 1006 1
     (by decide) rfl rfl (by decide)⟩

/-- C10: a request sent while the socket is not open is queued while its
timeout timer runs; when the timeout fires first, the pending handler is
removed (the caller gets the timeout rejection) yet the request stays in the
offline queue, is written to the server on the next successful open, and the
eventual reply carrying its id is then handled as a notification. -/
theorem c10_timedout_queued_request (s : WSState) (r : RPCRequest) (resp : RPCResponse)
    (hclosed : s.socketOpen = false) (hresp : resp.resId = r.reqId) :
    (sendRequest (fun _ => true) s r).2 = SendOutcome.queued ∧
    r ∈ (sendRequest (fun _ => true) s r).1.messageQueue ∧
    r.reqId ∈ (sendRequest (fun _ => true) s r).1.pendingIds ∧
    (timeoutFire (sendRequest (fun _ => true) s r).1 r.reqId).2 =
      "Request " ++ toString r.reqId ++ " timed out after " ++
        toString s.requestTimeout ++ "ms" ∧
    r.reqId ∉ (queuedThenTimeoutState s r).pendingIds ∧
    r ∈ (queuedThenTimeoutState s r).messageQueue ∧
    r ∈ (reopenedState s r).sentMessages ∧
    (handleMessage (reopenedState s r) resp).2 = MessageHandling.notificationDispatch := by
  have hsend : sendRequest (fun _ => true) s r =
      ({ s with
          pendingIds := insertPending r.reqId s.pendingIds
          messageQueue := s.messageQueue ++ [r] }, .queued) := by
    unfold sendRequest
    rw [hclosed]
    simp
  have hqueue : r ∈ (queuedThenTimeoutState s r).messageQueue := by
    unfold queuedThenTimeoutState timeoutFire
    rw [hsend]
    simp
  have hpend : r.reqId ∉ (queuedThenTimeoutState s r).pendingIds := by
    unfold queuedThenTimeoutState timeoutFire
    exact not_mem_removePending _ _
  have hopen := onOpen_all_ok (queuedThenTimeoutState s r)
  refine ⟨by rw [hsend], by rw [hsend]; simp, by rw [hsend]; simp [mem_insertPending],
    by rw [hsend]; rfl, hpend, hqueue, ?_, ?_⟩
  · show r ∈ (reopenedState s r).sentMessages
    unfold reopenedState
    rw [hopen.1]
    exact List.mem_append_right _ hqueue
  · have h : resp.resId ∉ (reopenedState s r).pendingIds := by
      rw [hresp]
      unfold reopenedState
      rw [hopen.2.2]
      exact hpend
    unfold handleMessage
    rw [if_neg h]

/-- C10 witness: the concrete timed-out queued request scenario. -/
theorem c10_timedout_queued_request_witness :
    (initState { url := "wss://clearnet.example" }).socketOpen = false ∧
    (RPCResponse.mk 7 "get_ledger_balances" "ok").resId = sampleReq.reqId ∧
    ((sendRequest (fun _ => true) (initState { url := "wss://clearnet.example" })
        sampleReq).2 = SendOutcome.queued ∧
     sampleReq ∈ (sendRequest (fun _ => true) (initState { url := "wss://clearnet.example" })
        sampleReq).1.messageQueue ∧
     sampleReq.reqId ∈ (sendRequest (fun _ => true)
        (initState { url := "wss://clearnet.example" }) sampleReq).1.pendingIds ∧
     (timeoutFire (sendRequest (fun _ => true)
        (initState { url := "wss://clearnet.example" }) sampleReq).1 sampleReq.reqId).2 =
       "Request " ++ toString sampleReq.reqId ++ " timed out after " ++
         toString (initState { url := "wss://clearnet.example" }).requestTimeout ++ "ms" ∧
     sampleReq.reqId ∉ (queuedThenTimeoutState
        (initState { url := "wss://clearnet.example" }) sampleReq).pendingIds ∧
     sampleReq ∈ (queuedThenTimeoutState
        (initState { url := "wss://clearnet.example" }) sampleReq).messageQueue ∧
     sampleReq ∈ (reopenedState
        (initState { url := "wss://clearnet.example" }) sampleReq).sentMessages ∧
     (handleMessage (reopenedState (initState { url := "wss://clearnet.example" }) sampleReq)
        (RPCResponse.mk 7 "get_ledger_balances" "ok")).2 =
       MessageHandling.notificationDispatch) :=
  ⟨rfl, rfl,
   c10_timedout_queued_request (initState { url := "wss://clearnet.example" }) sampleReq
     (RPCResponse.mk 7 "get_ledger_balances" "ok") rfl rfl⟩

/-! Lemmas about digit strings and the C4 conversion. -/

theorem digitsVal_nil : digitsVal [] = 0 := rfl

theorem digitsVal_cons (d : Nat) (t : List Nat) :
    digitsVal (d :: t) = t.foldl (fun a x => 10 * a + x) d := by
  simp [digitsVal]

theorem digitsVal_foldl (l : List Nat) (acc : Nat) :
    l.foldl (fun a d => 10 * a + d) acc = acc * 10 ^ l.length + digitsVal l := by
  induction l generalizing acc with
  | nil => simp [digitsVal]
  | cons d t ih =>
    rw [List.foldl_cons, ih, digitsVal_cons, ih d]
    simp only [List.length_cons]
    ring

theorem digitsVal_append (a b : List Nat) :
    digitsVal (a ++ b) = digitsVal a * 10 ^ b.length + digitsVal b := by
  show (a ++ b).foldl (fun acc d => 10 * acc + d) 0 = _
  rw [List.foldl_append]
  exact digitsVal_foldl b (digitsVal a)

theorem digitsVal_replicate_zero (k : Nat) : digitsVal (List.replicate k 0) = 0 := by
  induction k with
  | zero => rfl
  | succ k ih =>
    rw [List.replicate_succ, digitsVal_cons]
    exact ih

theorem digitsVal_dropWhile_zero (l : List Nat) :
    digitsVal (l.dropWhile (fun d => d == 0)) = digitsVal l := by
  induction l with
  | nil => rfl
  | cons d t ih =>
    by_cases h : d = 0
    · subst h
      rw [List.dropWhile_cons, if_pos (by simp), digitsVal_cons]
      exact ih
    · rw [List.dropWhile_cons, if_neg (by simpa using h)]

theorem digitsVal_stripZeros (l : List Nat) : digitsVal (stripZeros l) = digitsVal l := by
  rw [← digitsVal_dropWhile_zero l]
  unfold stripZeros
  rcases h : l.dropWhile (fun d => d == 0) with _ | ⟨d, t⟩ <;> rfl

theorem digitsVal_lt (l : List Nat) (h : ∀ x ∈ l, x < 10) :
    digitsVal l < 10 ^ l.length := by
  induction l with
  | nil => simp [digitsVal]
  | cons d t ih =>
    have hd : d < 10 := h d (List.mem_cons_self d t)
    have ht := ih (fun x hx => h x (List.mem_cons_of_mem d hx))
    rw [digitsVal_cons, digitsVal_foldl]
    simp only [List.length_cons]
    calc d * 10 ^ t.length + digitsVal t
        < (d + 1) * 10 ^ t.length := by
          have hp : (0:Nat) < 10 ^ t.length := by positivity
          nlinarith
      _ ≤ 10 * 10 ^ t.length := Nat.mul_le_mul_right _ (by omega)
      _ = 10 ^ (t.length + 1) := by ring

/-- Padding/truncating the fractional digits to `d` places reads off exactly
the natural number `digitsVal f * 10^d / 10^(f.length)`. -/
theorem digitsVal_take_pad (f : List Nat) (d : Nat) (hf : ∀ x ∈ f, x < 10) :
    digitsVal ((f ++ List.replicate d 0).take d) =
      digitsVal f * 10 ^ d / 10 ^ f.length := by
  rcases le_or_lt f.length d with hLd | hdL
  · rw [List.take_append_eq_append_take, List.take_of_length_le hLd, List.take_replicate]
    have hmin : min (d - f.length) d = d - f.length := by omega
    rw [hmin, digitsVal_append, digitsVal_replicate_zero, List.length_replicate]
    have hsplit : (10:Nat) ^ d = 10 ^ f.length * 10 ^ (d - f.length) := by
      rw [← pow_add]
      congr 1
      omega
    rw [hsplit, Nat.mul_comm (10 ^ f.length) _, ← Nat.mul_assoc,
      Nat.mul_div_cancel _ (by positivity)]
    omega
  · rw [List.take_append_of_le_length (le_of_lt hdL)]
    have hsplit := List.take_append_drop d f
    have hval : digitsVal f = digitsVal (f.take d) * 10 ^ (f.length - d) + digitsVal (f.drop d) := by
      conv_lhs => rw [← hsplit]
      rw [digitsVal_append, List.length_drop]
    have hdrop : digitsVal (f.drop d) < 10 ^ (f.length - d) := by
      have := digitsVal_lt (f.drop d) (fun x hx => hf x (List.mem_of_mem_drop hx))
      rwa [List.length_drop] at this
    have hpow : (10:Nat) ^ f.length = 10 ^ (f.length - d) * 10 ^ d := by
      rw [← pow_add]
      congr 1
      omega
    rw [hval, hpow, Nat.mul_div_mul_right _ _ (by positivity)]
    have hp : (0:Nat) < 10 ^ (f.length - d) := by positivity
    rw [Nat.add_comm, Nat.mul_comm, Nat.add_mul_div_left _ _ hp,
      Nat.div_eq_of_lt hdrop]
    omega

/-- Cleaning leading zeros of the whole part before concatenating does not
change the cleaned concatenation. -/
theorem stripZeros_append_stripZeros (w p : List Nat) :
    stripZeros (stripZeros w ++ p) = stripZeros (w ++ p) := by
  have key : (stripZeros w ++ p).dropWhile (fun x => x == 0) =
      (w ++ p).dropWhile (fun x => x == 0) := by
    rw [List.dropWhile_append, List.dropWhile_append]
    rcases h : w.dropWhile (fun x => x == 0) with _ | ⟨d, t⟩
    · have hw0 : stripZeros w = [0] := by
        unfold stripZeros
        rw [h]
      rw [hw0]
      simp [List.dropWhile_cons]
    · have hw0 : stripZeros w = d :: t := by
        unfold stripZeros
        rw [h]
      have hd : (d == 0) = false := by
        have hx := List.head?_dropWhile_not (fun x => x == 0) w
        rw [h] at hx
        simpa using hx
      rw [hw0]
      simp [List.dropWhile_cons, hd]
  show (match (stripZeros w ++ p).dropWhile (fun x => x == 0) with
        | [] => [0]
        | l' => l') = stripZeros (w ++ p)
  rw [key]
  rfl

/-- C4: the conversion of a human decimal amount to smallest units pads or
truncates the fractional part to exactly `decimals` digits and concatenates it
to the integer part, and its numeric value is exactly the floor of
amount · 10^decimals — truncation, never rounding — for every well-formed
non-negative decimal digit string and every number of decimals. -/
theorem c4_toSmallest_floor (whole frac : List Nat) (d : Nat)
    (_hw : ∀ x ∈ whole, x < 10) (hf : ∀ x ∈ frac, x < 10) :
    toSmallest whole frac d =
      stripZeros (whole ++ (frac ++ List.replicate d 0).take d) ∧
    digitsVal (toSmallest whole frac d) =
      Nat.floor (decimalVal whole frac * 10 ^ d) := by
  have hmech : toSmallest whole frac d =
      stripZeros (whole ++ (frac ++ List.replicate d 0).take d) := by
    unfold toSmallest
    exact stripZeros_append_stripZeros _ _
  refine ⟨hmech, ?_⟩
  rw [hmech, digitsVal_stripZeros, digitsVal_append, digitsVal_take_pad frac d hf]
  have hlen : ((frac ++ List.replicate d 0).take d).length = d := by
    rw [List.length_take, List.length_append, List.length_replicate]
    omega
  rw [hlen]
  -- now the rational floor computation
  have hcast : decimalVal whole frac * 10 ^ d =
      ((digitsVal whole * 10 ^ frac.length + digitsVal frac) * 10 ^ d : ℕ) /
        ((10 ^ frac.length : ℕ) : ℚ) := by
    unfold decimalVal
    have hne : ((10 ^ frac.length : ℕ) : ℚ) ≠ 0 := by positivity
    field_simp
  rw [hcast, Nat.floor_div_nat, Nat.floor_natCast]
  have harith : (digitsVal whole * 10 ^ frac.length + digitsVal frac) * 10 ^ d =
      10 ^ frac.length * (digitsVal whole * 10 ^ d) + digitsVal frac * 10 ^ d := by
    ring
  rw [harith, Nat.mul_add_div (by positivity)]

/-- C4 witness: converting 1.5 at 6 decimals yields 1500000. -/
theorem c4_toSmallest_floor_witness :
    (∀ x ∈ [1], x < 10) ∧ (∀ x ∈ [5], x < 10) ∧
    (toSmallest [1] [5] 6 =
       stripZeros ([1] ++ ([5] ++ List.replicate 6 0).take 6) ∧
     digitsVal (toSmallest [1] [5] 6) = Nat.floor (decimalVal [1] [5] * 10 ^ 6)) :=
  ⟨by decide, by decide, c4_toSmallest_floor [1] [5] 6 (by decide) (by decide)⟩

/-- C5: a numeric (all-digit) available balance strictly below the requested
smallest-unit amount makes the send fail with a precondition error reporting
the available amount, the requested amount and the balance source, with no
transfer entry point attempted; a non-numeric available balance lets the send
proceed to the transfer dispatch. -/
theorem c5_balance_precheck (available requested source : String) (acct : TokenAccount) :
    (isNumericStr available = true → strNatVal available < strNatVal requested →
      sendCryptoTokenPhase available requested source acct =
        ([], Except.error ("Insufficient balance. Available: " ++ available ++ " (" ++
          source ++ "), Requested: " ++ requested))) ∧
    (isNumericStr available = false →
      sendCryptoTokenPhase available requested source acct = tokenDispatch acct) := by
  constructor
  · intro hnum hlt
    unfold sendCryptoTokenPhase balancePreCheck
    rw [if_pos hnum, if_pos hlt]
  · intro hnn
    unfold sendCryptoTokenPhase balancePreCheck
    rw [if_neg (by simp [hnn])]

/-- C5 witness: 50 USDT available (at 6 decimals) against a requested
1000 USDT fails with the reported values and source, and an undetermined
balance string proceeds to the dispatch. -/
theorem c5_balance_precheck_witness :
    (isNumericStr "50000000" = true ∧
     strNatVal "50000000" < strNatVal "1000000000" ∧
     sendCryptoTokenPhase "50000000" "1000000000" "wdk-getTokenBalance" emptyAccount =
       ([], Except.error ("Insufficient balance. Available: " ++ "50000000" ++ " (" ++
         "wdk-getTokenBalance" ++ "), Requested: " ++ "1000000000"))) ∧
    (isNumericStr "unknown" = false ∧
     sendCryptoTokenPhase "unknown" "1000000000" "unknown" emptyAccount =
       tokenDispatch emptyAccount) :=
  ⟨⟨by decide, by decide,
    (c5_balance_precheck "50000000" "1000000000" "wdk-getTokenBalance" emptyAccount).1
      (by decide) (by decide)⟩,
   ⟨by decide,
    (c5_balance_precheck "unknown" "1000000000" "unknown" emptyAccount).2 (by decide)⟩⟩

/-- C6, counterexample: when the first entry point succeeds with an object
result that has neither a `hash` nor a `txHash` field, the dispatch returns
the object's string rendering — a value that is not the result itself (the
result is not a string) and not the value of a hash or txHash field, so the
claimed extraction rule fails on this input. -/
theorem c6_extraction_counterexample :
    tokenDispatch hashlessAccount =
      ([Attempt.transferRecipient], Except.ok "objectlike-rendering") ∧
    ¬ claimedHashOf hashlessResult "objectlike-rendering" := by
  constructor
  · rfl
  · intro h
    rcases h with h | ⟨t, rep, h⟩ | ⟨hs, rep, h⟩ <;> simp [hashlessResult] at h

/-- C6, amended: the five entry points are attempted in exactly the stated
order (absent methods skipped), the first success ends the dispatch, and the
returned txHash is the result itself when it is a string, otherwise its first
non-empty `.hash` or `.txHash` field, otherwise the result's string rendering;
a throw of the final generic send propagates, and an empty extracted hash is
reported as an unsupported-method error. -/
theorem c6_dispatch_ordered (a : TokenAccount) :
    tokenDispatch a = specOrderedDispatch a := by
  obtain ⟨tr, st, tt, sd⟩ := a
  rcases tr with _ | ⟨_ | _, _ | _⟩ <;>
    rcases st with _ | (_ | _) <;>
      rcases tt with _ | (_ | _) <;>
        rcases sd with _ | (_ | _) <;> rfl

/-- C7: `createChannel` builds the initial state with intent INITIALIZE,
version 0, data 0x and allocations [(0, initialDeposit or 0), (1, 0)] for
every optional initial deposit (a missing or zero deposit both yield a zero
first allocation), and all three channel operations submit exactly the two
clearnode signatures in the order [user, server]. -/
theorem c7_channel_calls (cd : ChannelData) (dep : Option Int)
    (rd rd' : StateResponseData) :
    (createChannelCall cd dep).state =
      { intent := StateIntent.INITIALIZE, version := 0, data := "0x",
        allocations := [(0, dep.getD 0), (1, 0)] } ∧
    (createChannelCall cd dep).sigs = [cd.userSignature, cd.serverSignature] ∧
    (resizeChannelCall rd).sigs = [rd.userSignature, rd.serverSignature] ∧
    (closeChannelCall rd').sigs = [rd'.userSignature, rd'.serverSignature] := by
  refine ⟨?_, rfl, rfl, rfl⟩
  unfold createChannelCall buildInitialState
  rcases dep with _ | dep
  · rfl
  · by_cases h : dep = 0
    · subst h
      simp
    · simp [h]

/-- C8: the channel id equals keccak256 of the ABI encoding of
(participants[2], adjudicator, challenge, nonce) and is a pure function of
that tuple: any two channels with equal tuples yield the identical id. -/
theorem c8_channel_id (c c' : Channel)
    (hp : c.participants = c'.participants)
    (ha : c.adjudicator = c'.adjudicator)
    (hc : c.challenge = c'.challenge)
    (hn : c.nonce = c'.nonce) :
    computeChannelId c =
      keccak256 (encodeChannelTuple c.participants.1 c.participants.2
        c.adjudicator c.challenge c.nonce) ∧
    computeChannelId c = computeChannelId c' := by
  refine ⟨rfl, ?_⟩
  unfold computeChannelId
  rw [hp, ha, hc, hn]

/-- C8 witness: the identity of ids at a concrete channel tuple. -/
theorem c8_channel_id_witness :
    sampleChannel.participants = sampleChannel.participants ∧
    sampleChannel.adjudicator = sampleChannel.adjudicator ∧
    sampleChannel.challenge = sampleChannel.challenge ∧
    sampleChannel.nonce = sampleChannel.nonce ∧
    (computeChannelId sampleChannel =
       keccak256 (encodeChannelTuple sampleChannel.participants.1
         sampleChannel.participants.2 sampleChannel.adjudicator
         sampleChannel.challenge sampleChannel.nonce) ∧
     computeChannelId sampleChannel = computeChannelId sampleChannel) :=
  ⟨rfl, rfl, rfl, rfl,
   c8_channel_id sampleChannel sampleChannel rfl rfl rfl rfl⟩

end TempWallets
